import Mathlib

/-!
Shallow embedding of the interactive filtered-selection widget
`display_filterable_list` from `onboarding-scripts/user.py` and of the
role-picking routine `select_roles` from `onboarding-scripts/group.py`.

Python strings are modelled through their character lists (`String.data`),
so every operation below is structurally recursive and kernel-computable.
Python runtime errors (`ZeroDivisionError`, `IndexError`, `ValueError`,
`sys.exit(1)`) are made explicit as dedicated result constructors.
-/

namespace Spec2Proof

/-- Model of Python's `str.lower()` applied to a character list.
`str.lower()` maps each character to its lower-case form. -/
def pyLower (s : List Char) : List Char := s.map Char.toLower

/-- `startsWith hs ns` holds when the needle `ns` occurs at the very
beginning of the haystack `hs`. -/
def startsWith : List Char → List Char → Bool
  | _, [] => true
  | [], _ :: _ => false
  | a :: as, b :: bs => a == b && startsWith as bs

/-- Model of Python's substring test `needle in haystack` on strings:
true when `needle` occurs contiguously somewhere in `haystack`
(the empty needle occurs in every string). -/
def containsSub (needle : List Char) : List Char → Bool
  | [] => startsWith [] needle
  | c :: cs => startsWith (c :: cs) needle || containsSub needle cs

/-- Model of Python's slice `s[:-1]`: drop the final character, and leave
the empty string unchanged. -/
def pyDropLast (s : String) : String := ⟨s.data.dropLast⟩

/-- Model of Python's `s + chr(key)`: append one character. -/
def pyAppendChar (s : String) (c : Char) : String := ⟨s.data ++ [c]⟩

/-- Model of Python's list indexing `l[i]` with an `int` index: `some`
element for an in-range index (negative indices count from the end),
`none` where Python raises `IndexError`. -/
def pyGet {α : Type} (l : List α) (i : Int) : Option α :=
  if 0 ≤ i then l.get? i.toNat
  else if 0 ≤ i + l.length then l.get? (i + l.length).toNat
  else none

/-- One selectable entry as the widget sees it: a FusionAuth group dict,
of which the widget reads the fields `name` and `id`. -/
structure SelOption where
  name : String
  id : String
deriving DecidableEq

/-- The filter predicate of `user.py` line 51:
`search_text.lower() in opt['name'].lower()`. -/
def matchesFilter (search : String) (o : SelOption) : Bool :=
  containsSub (pyLower search.data) (pyLower o.name.data)

/-- The list comprehension of `user.py` line 51:
`[opt for opt in options if search_text.lower() in opt['name'].lower()]`. -/
def filteredOptions (options : List SelOption) (search : String) : List SelOption :=
  options.filter (matchesFilter search)

/-- The filtering rule as the specification words it: the subsequence of
the original list consisting of exactly those options whose label contains
the search text as a case-insensitive substring, in original order.
Written by direct recursion over the list, to be compared with the
code-derived `filteredOptions`. -/
def specFilteredView (search : String) : List SelOption → List SelOption
  | [] => []
  | o :: rest =>
    if containsSub (pyLower search.data) (pyLower o.name.data) then
      o :: specFilteredView search rest
    else
      specFilteredView search rest

/-- ncurses key code `curses.KEY_UP`. -/
abbrev KEY_UP : Nat := 259

/-- ncurses key code `curses.KEY_DOWN`. -/
abbrev KEY_DOWN : Nat := 258

/-- ncurses key code `curses.KEY_BACKSPACE`. -/
abbrev KEY_BACKSPACE : Nat := 263

/-- ncurses key code `curses.KEY_ENTER`. -/
abbrev KEY_ENTER : Nat := 343

/-- The mutable state of the selection loop in `display_filterable_list`:
the highlighted row and the typed filter text.  The filtered view is not
part of the state: the loop recomputes it from `search_text` on every
iteration.  `current_row` is an integer, as in Python. -/
structure SelState where
  current_row : Int
  search_text : String
deriving DecidableEq

/-- Outcome of processing one key event in the loop body. -/
inductive StepResult where
  | next (st : SelState)
  | selected (id : String)
  | cancelled
  | crash
deriving DecidableEq

/-- Outcome of running the loop on a finite sequence of key events. -/
inductive RunResult where
  | active (st : SelState)
  | selected (id : String)
  | cancelled
  | crash
deriving DecidableEq

/-- One iteration of the `while True` loop of `display_filterable_list`
(lines 46-79 of `user.py`), given the key returned by `stdscr.getch()`.
`filtered` is the list comprehension recomputed at the top of the loop.
`(x - 1) % len(filtered_options)` raises `ZeroDivisionError` when the
filtered list is empty, and `filtered_options[current_row]` raises
`IndexError` when `current_row` is out of range; both are modelled by
`.crash`.  The final `else` appends `chr(key)` to the search text. -/
def step (options : List SelOption) (st : SelState) (key : Nat) : StepResult :=
  if key = KEY_UP then
    if (filteredOptions options st.search_text).length = 0 then .crash
    else .next ⟨(st.current_row - 1) % ((filteredOptions options st.search_text).length : Int),
                st.search_text⟩
  else if key = KEY_DOWN then
    if (filteredOptions options st.search_text).length = 0 then .crash
    else .next ⟨(st.current_row + 1) % ((filteredOptions options st.search_text).length : Int),
                st.search_text⟩
  else if key = KEY_BACKSPACE ∨ key = 127 then
    .next ⟨st.current_row, pyDropLast st.search_text⟩
  else if key = KEY_ENTER ∨ key = 10 ∨ key = 13 then
    match pyGet (filteredOptions options st.search_text) st.current_row with
    | some o => .selected o.id
    | none => .crash
  else if key = 27 then
    .cancelled
  else
    .next ⟨st.current_row, pyAppendChar st.search_text (Char.ofNat key)⟩

/-- Run the selection loop over a finite list of key events.  If the key
events are exhausted the loop is still `active`, blocked on `getch()`. -/
def run (options : List SelOption) : SelState → List Nat → RunResult
  | st, [] => .active st
  | st, k :: ks =>
    match step options st k with
    | .next st' => run options st' ks
    | .selected i => .selected i
    | .cancelled => .cancelled
    | .crash => .crash

/-- The state on entry to the loop: `current_row = 0`, `search_text = ""`
(lines 43-44 of `user.py`). -/
def initState : SelState := ⟨0, ""⟩

/-- The option list of the specification's scenarios 1-3. -/
def options3 : List SelOption :=
  [⟨"Team A", "1"⟩, ⟨"Team B", "2"⟩, ⟨"Alpha", "3"⟩]

/-- An option list on which one "down" followed by typing a letter leaves
the cursor beyond the shrunken filtered view. -/
def optionsAB : List SelOption := [⟨"aa", "1"⟩, ⟨"b", "2"⟩]

/-- The option list of the specification's scenario 4. -/
def optionsX : List SelOption := [⟨"X", "1"⟩]

/-- A role as `select_roles` in `group.py` sees it: a dict with fields
`name` and `id`. -/
structure Role where
  name : String
  id : String
deriving DecidableEq

/-- Drop leading whitespace characters. -/
def dropLeadingWS : List Char → List Char
  | [] => []
  | c :: cs => if c.isWhitespace then dropLeadingWS cs else c :: cs

/-- Model of Python's `str.strip()`: remove whitespace from both ends. -/
def pyStrip (s : List Char) : List Char :=
  ((dropLeadingWS ((dropLeadingWS s).reverse)).reverse)

/-- Model of Python's `s.split(",")`: cut at every comma; the empty string
splits to one empty piece. -/
def splitComma : List Char → List (List Char)
  | [] => [[]]
  | c :: cs =>
    if c = ',' then [] :: splitComma cs
    else
      match splitComma cs with
      | [] => [[c]]
      | t :: ts => (c :: t) :: ts

/-- Accumulator pass over decimal digits; fails at the first non-digit. -/
def parseDigitsAux : Nat → List Char → Option Nat
  | acc, [] => some acc
  | acc, c :: cs =>
    if c.isDigit then parseDigitsAux (acc * 10 + (c.toNat - 48)) cs
    else none

/-- Parse a non-empty all-digit string to its decimal value. -/
def parseDigits : List Char → Option Nat
  | [] => none
  | l => parseDigitsAux 0 l

/-- Model of Python's `int(s)` on a string: optional surrounding
whitespace, an optional sign, then one or more decimal digits; `none`
where Python raises `ValueError`.  (Python additionally accepts
underscore digit separators, which this model omits.) -/
def pyInt (s : List Char) : Option Int :=
  match pyStrip s with
  | '-' :: rest => (parseDigits rest).map (fun n => -(n : Int))
  | '+' :: rest => (parseDigits rest).map (fun n => (n : Int))
  | l => (parseDigits l).map (fun n => (n : Int))

/-- The list comprehension of `group.py` line 111:
`[int(index.strip()) - 1 for index in selected_indices.split(",")]`.
Evaluates tokens left to right; the first token `int()` rejects makes the
whole comprehension raise `ValueError`, modelled by `none`. -/
def parseTokens : List (List Char) → Option (List Int)
  | [] => some []
  | t :: ts =>
    match pyInt t with
    | none => none
    | some n =>
      match parseTokens ts with
      | none => none
      | some ns => (n - 1) :: ns

/-- `roles[i]["id"]` for an index the range check has already admitted. -/
def roleIdAt (roles : List Role) (i : Int) : String :=
  match pyGet roles i with
  | some r => r.id
  | none => ""

/-- The checking loop of `group.py` lines 112-115: walk the parsed
indices, raise `ValueError` (leading to `sys.exit(1)`, modelled by
`.error ()`) at the first index outside `[0, len(roles))`, and otherwise
collect `roles[index]["id"]` in order. -/
def collectRoleIds (roles : List Role) : List Int → Except Unit (List String)
  | [] => .ok []
  | i :: is =>
    if i < 0 ∨ (roles.length : Int) ≤ i then .error ()
    else
      match collectRoleIds roles is with
      | .error e => .error e
      | .ok rest => .ok (roleIdAt roles i :: rest)

/-- The input-dependent part of `select_roles` in `group.py` (lines
108-120): split the operator's answer at commas, parse every token with
`int(token.strip()) - 1`, then range-check and resolve each index.
`.error ()` models the `except ValueError` handler printing an input
error and calling `sys.exit(1)`; no partial selection is ever returned. -/
def select_roles (roles : List Role) (input : String) : Except Unit (List String) :=
  match parseTokens (splitComma input.data) with
  | none => .error ()
  | some idxs => collectRoleIds roles idxs

/-- Roles used by concrete witnesses below. -/
def roles2 : List Role := [⟨"admin", "A"⟩, ⟨"user", "B"⟩]

/-! ### Helper lemmas -/

/-- Unfolding of one loop iteration on a key list. -/
theorem run_cons (options : List SelOption) (st : SelState) (k : Nat) (ks : List Nat) :
    run options st (k :: ks) =
      match step options st k with
      | .next st' => run options st' ks
      | .selected i => .selected i
      | .cancelled => .cancelled
      | .crash => .crash := rfl

/-- A non-terminal iteration continues the loop in the updated state. -/
theorem run_next (options : List SelOption) (st st' : SelState) (k : Nat) (ks : List Nat)
    (h : step options st k = .next st') :
    run options st (k :: ks) = run options st' ks := by
  rw [run_cons, h]

/-- The "down" branch of the loop body (lines 68-69 of `user.py`). -/
theorem step_down_eq (options : List SelOption) (st : SelState) :
    step options st KEY_DOWN =
      (if (filteredOptions options st.search_text).length = 0 then .crash
       else .next ⟨(st.current_row + 1) % ((filteredOptions options st.search_text).length : Int),
                   st.search_text⟩) := rfl

/-- The "up" branch of the loop body (lines 66-67 of `user.py`). -/
theorem step_up_eq (options : List SelOption) (st : SelState) :
    step options st KEY_UP =
      (if (filteredOptions options st.search_text).length = 0 then .crash
       else .next ⟨(st.current_row - 1) % ((filteredOptions options st.search_text).length : Int),
                   st.search_text⟩) := rfl

/-- Pressing "down" `k` times over a fixed non-empty filtered view adds
`k` to the cursor modulo the view length. -/
theorem run_replicate_down (options : List SelOption) (s : String)
    (hpos : 0 < (filteredOptions options s).length) :
    ∀ (k : Nat) (c : Int), 0 ≤ c → c < ((filteredOptions options s).length : Int) →
      run options ⟨c, s⟩ (List.replicate k KEY_DOWN) =
        .active ⟨(c + k) % ((filteredOptions options s).length : Int), s⟩ := by
  intro k
  induction k with
  | zero =>
    intro c hc0 hc1
    simp only [List.replicate, run, Nat.cast_zero, Int.add_zero]
    rw [Int.emod_eq_of_lt hc0 hc1]
  | succ k ih =>
    intro c hc0 hc1
    have hne : ¬ (filteredOptions options s).length = 0 := by omega
    rw [List.replicate_succ,
      run_next options ⟨c, s⟩ ⟨(c + 1) % ((filteredOptions options s).length : Int), s⟩
        KEY_DOWN _ (by rw [step_down_eq, if_neg hne]),
      ih ((c + 1) % ((filteredOptions options s).length : Int))
        (Int.emod_nonneg _ (by omega)) (Int.emod_lt_of_pos _ (by omega))]
    congr 2
    rw [Int.emod_add_emod]
    congr 1
    push_cast
    omega

/-- One loop iteration never makes the cursor negative: the arrow keys
assign a Euclidean remainder by a nonzero length, and every other
non-terminal branch leaves the cursor unchanged. -/
theorem step_cursor_nonneg (options : List SelOption) (st : SelState) (key : Nat)
    (st' : SelState) (h0 : 0 ≤ st.current_row) (h : step options st key = .next st') :
    0 ≤ st'.current_row := by
  unfold step at h
  split at h
  · split at h
    next => exact StepResult.noConfusion h
    next hlen =>
      injection h with h2
      subst h2
      exact Int.emod_nonneg _ (by omega)
  · split at h
    · split at h
      next => exact StepResult.noConfusion h
      next hlen =>
        injection h with h2
        subst h2
        exact Int.emod_nonneg _ (by omega)
    · split at h
      · injection h with h2
        subst h2
        exact h0
      · split at h
        · split at h
          · exact StepResult.noConfusion h
          · exact StepResult.noConfusion h
        · split at h
          · exact StepResult.noConfusion h
          · injection h with h2
            subst h2
            exact h0

/-- The loop invariant `0 ≤ current_row`, carried along any run. -/
theorem run_cursor_nonneg (options : List SelOption) (keys : List Nat) :
    ∀ st st' : SelState, 0 ≤ st.current_row →
      run options st keys = .active st' → 0 ≤ st'.current_row := by
  induction keys with
  | nil =>
    intro st st' h0 h
    simp only [run] at h
    injection h with h2
    subst h2
    exact h0
  | cons k ks ih =>
    intro st st' h0 h
    rw [run_cons] at h
    cases hs : step options st k with
    | next st1 =>
      rw [hs] at h
      exact ih st1 st' (step_cursor_nonneg options st k st1 h0 hs) h
    | selected i => rw [hs] at h; exact RunResult.noConfusion h
    | cancelled => rw [hs] at h; exact RunResult.noConfusion h
    | crash => rw [hs] at h; exact RunResult.noConfusion h

/-- When every parsed index is in range, the checking loop of
`select_roles` resolves them all, in order. -/
theorem collectRoleIds_ok (roles : List Role) (idxs : List Int)
    (h : ∀ i ∈ idxs, 0 ≤ i ∧ i < (roles.length : Int)) :
    collectRoleIds roles idxs = .ok (idxs.map (roleIdAt roles)) := by
  induction idxs with
  | nil => rfl
  | cons i is ih =>
    have hi := h i (List.mem_cons_self i is)
    rw [List.map_cons]
    unfold collectRoleIds
    rw [if_neg (by omega), ih (fun j hj => h j (List.mem_cons_of_mem i hj))]

/-- One out-of-range parsed index makes the checking loop of
`select_roles` fail. -/
theorem collectRoleIds_err (roles : List Role) (idxs : List Int)
    (h : ∃ i ∈ idxs, i < 0 ∨ (roles.length : Int) ≤ i) :
    collectRoleIds roles idxs = .error () := by
  induction idxs with
  | nil =>
    obtain ⟨i, hi, _⟩ := h
    exact absurd hi (List.not_mem_nil i)
  | cons i is ih =>
    unfold collectRoleIds
    by_cases hbad : i < 0 ∨ (roles.length : Int) ≤ i
    · rw [if_pos hbad]
    · rw [if_neg hbad]
      obtain ⟨j, hj, hjbad⟩ := h
      rcases List.mem_cons.mp hj with rfl | hjs
      · exact absurd hjbad hbad
      · rw [ih ⟨j, hjs, hjbad⟩]

/-! ### Claim theorems -/

/-- C1: for every option list and search text, the filtered view computed
by the selector (the comprehension of `user.py` line 51) is exactly the
subsequence of the original list consisting of the options whose label
contains the search text as a case-insensitive substring, in the original
relative order: it equals the spec-side recursive description, it is a
subsequence of the input, and it holds an option exactly when the input
holds it and its label matches. -/
theorem c1_filtered_view_spec (options : List SelOption) (s : String) :
    filteredOptions options s = specFilteredView s options ∧
    (filteredOptions options s).Sublist options ∧
    ∀ o : SelOption, o ∈ filteredOptions options s ↔ o ∈ options ∧ matchesFilter s o = true := by
  refine ⟨?_, List.filter_sublist _, fun o => ?_⟩
  · induction options with
    | nil => rfl
    | cons a l ih =>
      simp only [filteredOptions, List.filter_cons, specFilteredView, matchesFilter] at ih ⊢
      split
      · rw [ih]
      · exact ih
  · simp only [filteredOptions, List.mem_filter]

/-- C2: the claim says Enter on an empty filtered view is a no-op that
leaves the selector active.  The code instead evaluates
`filtered_options[current_row]` on the empty list and raises
`IndexError`: after typing "z" over the scenario list the view is empty,
and the Enter key (code 10) crashes the loop. -/
theorem c2_enter_on_empty_view_crashes :
    run options3 initState [122] = .active ⟨0, "z"⟩ ∧
    filteredOptions options3 "z" = [] ∧
    step options3 ⟨0, "z"⟩ 10 = .crash ∧
    run options3 initState [122, 10] = .crash := by decide

/-- C3: the claim says only Enter-with-nonempty-view and Escape terminate
the key loop.  The code also terminates it abnormally on an empty
filtered view: after typing "z" the view is empty and `KEY_UP` (259) or
`KEY_DOWN` (258) evaluates `% 0`, raising `ZeroDivisionError`, so the
loop is left by a key event that is neither Enter-with-nonempty-view nor
Escape. -/
theorem c3_arrow_on_empty_view_crashes :
    run options3 initState [122] = .active ⟨0, "z"⟩ ∧
    filteredOptions options3 "z" = [] ∧
    step options3 ⟨0, "z"⟩ KEY_UP = .crash ∧
    step options3 ⟨0, "z"⟩ KEY_DOWN = .crash ∧
    run options3 initState [122, 259] = .crash := by decide

/-- C4: the claim says the cursor bound `0 ≤ cursor < length(view)` is
re-established after every key event.  The code never clamps: over the
list `[{"aa","1"},{"b","2"}]`, pressing "down" (cursor 1) and then typing
"a" shrinks the view to length 1 while the cursor stays 1, violating the
bound on a non-empty view; the next Enter then crashes with
`IndexError`. -/
theorem c4_cursor_bound_violated :
    run optionsAB initState [KEY_DOWN, 97] = .active ⟨1, "a"⟩ ∧
    (filteredOptions optionsAB "a").length = 1 ∧
    ¬ ((SelState.mk 1 "a").current_row < ((filteredOptions optionsAB "a").length : Int)) ∧
    step optionsAB ⟨1, "a"⟩ 10 = .crash := by decide

/-- C5: over a non-empty filtered view of length `n` with the cursor `c`
in range, "down" moves the cursor to `(c+1) mod n`, "up" moves it to
`(c-1) mod n`, pressing "down" `n` times returns it to `c`, and "up"
then "down" is the identity on the selector state. -/
theorem c5_navigation (options : List SelOption) (st : SelState)
    (hn : 0 < (filteredOptions options st.search_text).length)
    (hc0 : 0 ≤ st.current_row)
    (hc1 : st.current_row < ((filteredOptions options st.search_text).length : Int)) :
    step options st KEY_DOWN =
      .next ⟨(st.current_row + 1) % ((filteredOptions options st.search_text).length : Int),
             st.search_text⟩ ∧
    step options st KEY_UP =
      .next ⟨(st.current_row - 1) % ((filteredOptions options st.search_text).length : Int),
             st.search_text⟩ ∧
    run options st (List.replicate (filteredOptions options st.search_text).length KEY_DOWN) =
      .active st ∧
    run options st [KEY_UP, KEY_DOWN] = .active st := by
  obtain ⟨c, s⟩ := st
  simp only at hn hc0 hc1 ⊢
  have hne : ¬ (filteredOptions options s).length = 0 := by omega
  refine ⟨by rw [step_down_eq, if_neg hne], by rw [step_up_eq, if_neg hne], ?_, ?_⟩
  · rw [run_replicate_down options s hn _ c hc0 hc1]
    congr 2
    have h1 : c + ((filteredOptions options s).length : Int)
        = c + ((filteredOptions options s).length : Int) * 1 := by rw [Int.mul_one]
    rw [h1, Int.add_mul_emod_self_left, Int.emod_eq_of_lt hc0 hc1]
  · rw [run_next options ⟨c, s⟩ ⟨(c - 1) % ((filteredOptions options s).length : Int), s⟩
        KEY_UP _ (by rw [step_up_eq, if_neg hne]),
      run_next options _ ⟨((c - 1) % ((filteredOptions options s).length : Int) + 1)
          % ((filteredOptions options s).length : Int), s⟩
        KEY_DOWN _ (by rw [step_down_eq, if_neg hne])]
    simp only [run]
    congr 2
    rw [Int.emod_add_emod, Int.sub_add_cancel, Int.emod_eq_of_lt hc0 hc1]

/-- Witness for C5 at the scenario list with cursor 1 over the unfiltered
view of length 3. -/
theorem c5_navigation_witness :
    0 < (filteredOptions options3 "").length ∧
    (0 : Int) ≤ 1 ∧ (1 : Int) < ((filteredOptions options3 "").length : Int) ∧
    (step options3 ⟨1, ""⟩ KEY_DOWN =
      .next ⟨((1 : Int) + 1) % ((filteredOptions options3 "").length : Int), ""⟩ ∧
    step options3 ⟨1, ""⟩ KEY_UP =
      .next ⟨((1 : Int) - 1) % ((filteredOptions options3 "").length : Int), ""⟩ ∧
    run options3 ⟨1, ""⟩ (List.replicate (filteredOptions options3 "").length KEY_DOWN) =
      .active ⟨1, ""⟩ ∧
    run options3 ⟨1, ""⟩ [KEY_UP, KEY_DOWN] = .active ⟨1, ""⟩) :=
  ⟨by decide, by decide, by decide,
    c5_navigation options3 ⟨1, ""⟩ (by decide) (by decide) (by decide)⟩

/-- C6: pressing Escape (key 27) returns the distinct cancellation result
immediately, whatever the current search text, cursor position, and
option list (hence whatever the filtered view). -/
theorem c6_escape_cancels (options : List SelOption) (st : SelState) :
    step options st 27 = .cancelled := rfl

/-- C7: a backspace-class key (`KEY_BACKSPACE` or 127) removes the last
character of the search text and is a no-op on the empty text; a
printable character key (codes 32..126 are disjoint from every special
key code) appends that character.  Concretely, on `[{"X","1"}]`, typing
"xyz" then two backspaces leaves `search_text = "x"` with filtered view
`[{"X","1"}]`. -/
theorem c7_text_editing (options : List SelOption) (st : SelState) (key : Nat)
    (h32 : 32 ≤ key) (h126 : key ≤ 126) :
    step options st KEY_BACKSPACE = .next ⟨st.current_row, pyDropLast st.search_text⟩ ∧
    step options st 127 = .next ⟨st.current_row, pyDropLast st.search_text⟩ ∧
    pyDropLast "" = "" ∧
    step options st key = .next ⟨st.current_row, pyAppendChar st.search_text (Char.ofNat key)⟩ ∧
    run optionsX initState [120, 121, 122, 263, 263] = .active ⟨0, "x"⟩ ∧
    filteredOptions optionsX "x" = [⟨"X", "1"⟩] := by
  refine ⟨rfl, rfl, rfl, ?_, by decide, by decide⟩
  unfold step
  simp only [KEY_UP, KEY_DOWN, KEY_BACKSPACE, KEY_ENTER]
  rw [if_neg (by omega), if_neg (by omega), if_neg (by omega), if_neg (by omega),
    if_neg (by omega)]

/-- Witness for C7 with the printable key "x" (code 120). -/
theorem c7_text_editing_witness :
    32 ≤ 120 ∧ 120 ≤ 126 ∧
    step options3 ⟨0, "ab"⟩ 120 = .next ⟨0, pyAppendChar "ab" (Char.ofNat 120)⟩ :=
  ⟨by decide, by decide, (c7_text_editing options3 ⟨0, "ab"⟩ 120 (by decide) (by decide)).2.2.2.1⟩

/-- C8: on the scenario list with empty search text, pressing "down"
twice moves the cursor to index 2, where the filtered view holds
`{"Alpha","3"}`, and Enter then returns the identifier "3". -/
theorem c8_scenario3 :
    run options3 initState [KEY_DOWN, KEY_DOWN] = .active ⟨2, ""⟩ ∧
    pyGet (filteredOptions options3 "") 2 = some ⟨"Alpha", "3"⟩ ∧
    run options3 initState [KEY_DOWN, KEY_DOWN, 10] = .selected "3" := by decide

/-- C9: `select_roles` splits the operator input at commas and parses
every token with `int(token) - 1` (so token value `i` corresponds to
parsed index `i - 1`, and `1 ≤ i ≤ len(roles)` corresponds to
`0 ≤ i - 1 < len(roles)`).  If parsing fails on any token the function
exits with status 1 (`.error ()`); if all tokens parse and every parsed
index is in range it returns exactly `roles[i-1]["id"]` in token order,
duplicates allowed; if any parsed index is out of range it exits with
status 1 and never returns a partial selection. -/
theorem c9_select_roles_spec (roles : List Role) (input : String) :
    (parseTokens (splitComma input.data) = none → select_roles roles input = .error ()) ∧
    (∀ idxs : List Int, parseTokens (splitComma input.data) = some idxs →
      ((∀ i ∈ idxs, 0 ≤ i ∧ i < (roles.length : Int)) →
        select_roles roles input = .ok (idxs.map (roleIdAt roles))) ∧
      ((∃ i ∈ idxs, i < 0 ∨ (roles.length : Int) ≤ i) →
        select_roles roles input = .error ())) := by
  constructor
  · intro h
    unfold select_roles
    rw [h]
  · intro idxs h
    constructor
    · intro hall
      unfold select_roles
      rw [h]
      exact collectRoleIds_ok roles idxs hall
    · intro hex
      unfold select_roles
      rw [h]
      exact collectRoleIds_err roles idxs hex

/-- Witness for C9: the input "2, 1, 2" over two roles selects ids
`["B", "A", "B"]` in token order, with a duplicate. -/
theorem c9_select_roles_spec_witness :
    parseTokens (splitComma ("2, 1, 2").data) = some [1, 0, 1] ∧
    (∀ i ∈ ([1, 0, 1] : List Int), 0 ≤ i ∧ i < (roles2.length : Int)) ∧
    select_roles roles2 "2, 1, 2" = .ok (([1, 0, 1] : List Int).map (roleIdAt roles2)) :=
  ⟨by decide, by decide,
    ((c9_select_roles_spec roles2 "2, 1, 2").2 [1, 0, 1] (by decide)).1 (by decide)⟩

/-- C10: the cursor starts at 0 and is never negative in any state the
key loop can reach: the arrow keys assign a Euclidean remainder by the
positive length of the current filtered view, and no other branch lowers
the cursor. -/
theorem c10_cursor_never_negative (options : List SelOption) (keys : List Nat)
    (st' : SelState) (h : run options initState keys = .active st') :
    initState.current_row = 0 ∧ 0 ≤ st'.current_row :=
  ⟨rfl, run_cursor_nonneg options keys initState st' (by decide) h⟩

/-- Witness for C10 after one "down" on the scenario list. -/
theorem c10_cursor_never_negative_witness :
    run options3 initState [258] = .active ⟨1, ""⟩ ∧
    (initState.current_row = 0 ∧ 0 ≤ (SelState.mk 1 "").current_row) :=
  ⟨by decide, c10_cursor_never_negative options3 [258] ⟨1, ""⟩ (by decide)⟩

end Spec2Proof
